import Mathlib

/-!
Verification of the application-state store of the fitness calorie tracker
(`src/hooks/useAppState.tsx`).

Two levels of embedding are used:

* a dynamic level (`JSValue`) modelling untyped JavaScript runtime values,
  needed for `importData` (whose validation is a runtime truthiness /
  `typeof` check) and for the startup rehydration merge; and
* a structured level (`AppState` as a Lean structure) for the typed store
  operations `getLogForDate`, `addFood`, `addExercise`, `removeFood`,
  `removeExercise`, `clearChatHistory`.

The nondeterministic inputs of the code (the `Date.now()` clock used for id
generation, the device locale `navigator.language`, the active date string)
are explicit parameters of the Lean functions.
-/

/-- Untyped JavaScript runtime values (the fragment the store manipulates):
`undefined`, `null`, booleans, finite numbers (the code only compares
`typeof`, so integers suffice), `NaN`, strings, arrays, and plain objects as
ordered field lists. -/
inductive JSValue where
  | vundef : JSValue
  | vnull : JSValue
  | vbool : Bool → JSValue
  | vnum : Int → JSValue
  | vnan : JSValue
  | vstr : String → JSValue
  | varr : List JSValue → JSValue
  | vobj : List (String × JSValue) → JSValue

open JSValue

/-- JavaScript truthiness: `undefined`, `null`, `false`, `0`, `NaN` and `""`
are falsy; every object and array (including empty ones) is truthy. -/
def truthy : JSValue → Bool
  | vundef => false
  | vnull => false
  | vbool b => b
  | vnum x => x ≠ 0
  | vnan => false
  | vstr s => s ≠ ""
  | varr _ => true
  | vobj _ => true

/-- JavaScript `typeof`. In particular `typeof NaN = "number"` and
`typeof null = "object"`. -/
def typeofJS : JSValue → String
  | vundef => "undefined"
  | vnull => "object"
  | vbool _ => "boolean"
  | vnum _ => "number"
  | vnan => "number"
  | vstr _ => "string"
  | varr _ => "object"
  | vobj _ => "object"

/-- First-match lookup in an object's field list. -/
def lookupField : List (String × JSValue) → String → Option JSValue
  | [], _ => none
  | (k, v) :: rest, key => if k = key then some v else lookupField rest key

/-- Property access `v[key]` as the runtime performs it: accessing a property
of `null`/`undefined` throws a `TypeError` (modelled as `none`); on objects it
yields the field or `undefined`; on the remaining primitives and on arrays
the string keys used by this code are absent, yielding `undefined`. -/
def getFieldE : JSValue → String → Option JSValue
  | vundef, _ => none
  | vnull, _ => none
  | vobj fs, key => some ((lookupField fs key).getD vundef)
  | _, _ => some vundef

/-- Total property access (the value read when no exception occurs). -/
def getField (v : JSValue) (key : String) : JSValue :=
  (getFieldE v key).getD vundef

/-- `importData` from `useAppState.tsx` lines 157-163, over runtime values:
`if (newState && newState.logs && typeof newState.dailyGoal === 'number')`
install `newState` and return `true`, else return `false` leaving the
previous state. `none` models an uncaught exception; the result pairs the
returned boolean with the `appState` after the call. -/
def importData (prev candidate : JSValue) : Option (Bool × JSValue) :=
  if truthy candidate then
    match getFieldE candidate "logs" with
    | none => none
    | some logsVal =>
      if truthy logsVal then
        match getFieldE candidate "dailyGoal" with
        | none => none
        | some goalVal =>
          if typeofJS goalVal = "number" then some (true, candidate)
          else some (false, prev)
      else some (false, prev)
  else some (false, prev)

/-- The provider's mutable pieces relevant to import/persistence: the
`appState` value, the `isInitialized` flag, and the durable storage slot
(`localStorage` under the fixed key), holding the last serialized state. -/
structure ProviderState where
  appState : JSValue
  isInitialized : Bool
  storage : Option JSValue

/-- The persistence effect of `useAppState.tsx` lines 69-77: once
`isInitialized`, every `appState` change writes the whole state to durable
storage. -/
def persistEffect (p : ProviderState) : ProviderState :=
  if p.isInitialized then { p with storage := some p.appState } else p

/-- One `importData` call followed by the re-render's persistence effect:
on success `setAppState(newState)` changes `appState`, so the effect with
dependency `[appState, isInitialized]` re-runs; on failure no state update
happens and the provider is untouched. -/
def importDataStep (p : ProviderState) (candidate : JSValue) :
    Option (Bool × ProviderState) :=
  match importData p.appState candidate with
  | none => none
  | some (ok, st) =>
      some (ok, if ok then persistEffect { p with appState := st } else p)

/-! ## Structured data model (`src/types`, as used by `useAppState.tsx`) -/

/-- A logged food item: opaque string id plus nutritional data and meal tag. -/
structure FoodEntry where
  id : String
  name : String
  calories : Int
  protein : Int
  carbs : Int
  fat : Int
  meal : String
  deriving DecidableEq, Repr

/-- A logged exercise item: opaque string id, name, minutes, calories burned. -/
structure ExerciseEntry where
  id : String
  name : String
  duration : Int
  calories : Int
  deriving DecidableEq, Repr

/-- One date's records: ordered food and exercise sequences. -/
structure DailyLog where
  food : List FoodEntry
  exercise : List ExerciseEntry
  deriving DecidableEq, Repr

/-- Macro targets in grams. -/
structure MacronutrientGoals where
  protein : Int
  carbs : Int
  fat : Int
  deriving DecidableEq, Repr

/-- User profile; absent fields mean "not yet provided". -/
structure UserProfile where
  age : Option Int
  sex : Option String
  weight : Option Int
  height : Option Int
  activityLevel : String
  deriving DecidableEq, Repr

/-- One chat turn: role (`user` or `model`) and text. -/
structure ChatMessage where
  role : String
  text : String
  deriving DecidableEq, Repr

/-- A reusable food template (no id, no meal). -/
structure CustomFood where
  name : String
  calories : Int
  protein : Int
  carbs : Int
  fat : Int
  deriving DecidableEq, Repr

/-- The aggregate application state of `useAppState.tsx`; `logs` is the
date-string-keyed mapping, embedded as an ordered association list (JS object
fields). -/
structure AppState where
  dailyGoal : Int
  macronutrientGoals : MacronutrientGoals
  logs : List (String × DailyLog)
  customFoods : List CustomFood
  apiKey : Option String
  aiModel : String
  language : String
  userProfile : UserProfile
  chatHistory : List ChatMessage
  deriving DecidableEq, Repr

/-- First-match lookup of a date's log (JS `prev.logs[date]`, `undefined`
mapped to `none`). -/
def lookupLog : List (String × DailyLog) → String → Option DailyLog
  | [], _ => none
  | (k, v) :: rest, key => if k = key then some v else lookupLog rest key

/-- The JS spread `{ ...logs, [key]: v }`: replace the value at an existing
key in place, else append the new key at the end. -/
def setLog : List (String × DailyLog) → String → DailyLog → List (String × DailyLog)
  | [], key, v => [(key, v)]
  | (k, w) :: rest, key, v =>
      if k = key then (key, v) :: rest else (k, w) :: setLog rest key v

/-- The empty `DailyLog` literal `{ food: [], exercise: [] }`. -/
def emptyLog : DailyLog := { food := [], exercise := [] }

/-- `getLogForDate` (lines 83-85): the date's log, or an empty one. -/
def getLogForDate (s : AppState) (date : String) : DailyLog :=
  (lookupLog s.logs date).getD emptyLog

/-- `addFood`'s input: a `FoodEntry` minus its `id`. -/
structure FoodData where
  name : String
  calories : Int
  protein : Int
  carbs : Int
  fat : Int
  meal : String
  deriving DecidableEq, Repr

/-- `addExercise`'s input: an `ExerciseEntry` minus its `id`. -/
structure ExerciseData where
  name : String
  duration : Int
  calories : Int
  deriving DecidableEq, Repr

/-- `{ ...food, id: Date.now().toString() }` with the clock reading `now`. -/
def foodWithId (f : FoodData) (now : Nat) : FoodEntry :=
  { id := toString now, name := f.name, calories := f.calories,
    protein := f.protein, carbs := f.carbs, fat := f.fat, meal := f.meal }

/-- `{ ...exercise, id: Date.now().toString() }` with the clock reading `now`. -/
def exerciseWithId (e : ExerciseData) (now : Nat) : ExerciseEntry :=
  { id := toString now, name := e.name, duration := e.duration,
    calories := e.calories }

/-- `addFood` (lines 87-94) with active date `date` and clock reading `now`:
append the freshly-id'd entry to the date's food list, creating the log if
absent. -/
def addFood (date : String) (now : Nat) (f : FoodData) (prev : AppState) : AppState :=
  let newFoodEntry := foodWithId f now
  let currentLog := (lookupLog prev.logs date).getD emptyLog
  let newLog := { currentLog with food := currentLog.food ++ [newFoodEntry] }
  { prev with logs := setLog prev.logs date newLog }

/-- `addExercise` (lines 96-103), symmetric to `addFood`. -/
def addExercise (date : String) (now : Nat) (e : ExerciseData) (prev : AppState) :
    AppState :=
  let newExerciseEntry := exerciseWithId e now
  let currentLog := (lookupLog prev.logs date).getD emptyLog
  let newLog := { currentLog with exercise := currentLog.exercise ++ [newExerciseEntry] }
  { prev with logs := setLog prev.logs date newLog }

/-- `removeFood` (lines 105-113): if the active date has no log, return the
previous state; else keep only the food entries whose id differs. -/
def removeFood (date : String) (foodId : String) (prev : AppState) : AppState :=
  match lookupLog prev.logs date with
  | none => prev
  | some currentLog =>
      let newFood := currentLog.food.filter (fun f => f.id ≠ foodId)
      let newLog := { currentLog with food := newFood }
      { prev with logs := setLog prev.logs date newLog }

/-- `removeExercise` (lines 115-123), symmetric to `removeFood`. -/
def removeExercise (date : String) (exerciseId : String) (prev : AppState) : AppState :=
  match lookupLog prev.logs date with
  | none => prev
  | some currentLog =>
      let newExercise := currentLog.exercise.filter (fun e => e.id ≠ exerciseId)
      let newLog := { currentLog with exercise := newExercise }
      { prev with logs := setLog prev.logs date newLog }

/-- `clearChatHistory` (lines 153-155). -/
def clearChatHistory (prev : AppState) : AppState :=
  { prev with chatHistory := [] }

/-! ## Device-locale language heuristic and startup rehydration -/

/-- Whether `pat` occurs at the head of `s`. -/
def listStartsWith : List Char → List Char → Bool
  | _, [] => true
  | [], _ :: _ => false
  | a :: as, b :: bs => a == b && listStartsWith as bs

/-- Whether `pat` occurs contiguously anywhere in `s` (JS `String.includes`). -/
def hasSub : List Char → List Char → Bool
  | [], pat => pat.isEmpty
  | c :: rest, pat => listStartsWith (c :: rest) pat || hasSub rest pat

/-- `getInitialLanguage` (lines 4-10) with the device locale
(`navigator.language`) as parameter: lower-case it (character-wise; locale
tags are ASCII, where JS `toLowerCase` acts per character) and test for the
substrings `zh-tw` / `zh-hk`. -/
def getInitialLanguage (deviceLocale : String) : String :=
  let browserLang := deviceLocale.toList.map Char.toLower
  if hasSub browserLang "zh-tw".toList || hasSub browserLang "zh-hk".toList
  then "zh-TW" else "en"

/-- JS `a || b`: `a` when truthy, else `b`. -/
def jsOr (a b : JSValue) : JSValue := if truthy a then a else b

/-- `initialAppState.userProfile` (lines 28-34) as a runtime value. -/
def initialUserProfileJS : JSValue :=
  vobj [("age", vnull), ("sex", vnull), ("weight", vnull), ("height", vnull),
        ("activityLevel", vstr "moderate")]

/-- `initialAppState.macronutrientGoals` (lines 18-22) as a runtime value. -/
def initialMacroGoalsJS : JSValue :=
  vobj [("protein", vnum 150), ("carbs", vnum 250), ("fat", vnum 60)]

/-- `initialAppState` (lines 16-36) as a runtime value, for the given device
locale. -/
def initialAppStateFields (deviceLocale : String) : List (String × JSValue) :=
  [("dailyGoal", vnum 2000),
   ("macronutrientGoals", initialMacroGoalsJS),
   ("logs", vobj []),
   ("customFoods", varr []),
   ("apiKey", vnull),
   ("aiModel", vstr "gemini-2.5-flash"),
   ("language", vstr (getInitialLanguage deviceLocale)),
   ("userProfile", initialUserProfileJS),
   ("chatHistory", varr [])]

/-- The fields contributed by `...parsedState` in an object spread: an
object's own fields; an array's or string's index-keyed elements; nothing for
the other primitives. -/
def spreadFields : JSValue → List (String × JSValue)
  | vobj fs => fs
  | varr xs => xs.enum.map fun p => (toString p.1, p.2)
  | vstr s => s.toList.enum.map fun p => (toString p.1, vstr (String.mk [p.2]))
  | _ => []

/-- Object spread `{ ...a, ...b }`, later fields winning. Every observation
in this development is by first-match `lookupField`, so the merged object is
embedded with `b`'s fields taking priority by standing first; JS field
enumeration order is not observed by any claim. -/
def mergeFields (a b : List (String × JSValue)) : List (String × JSValue) :=
  b ++ a

/-- The load effect (lines 49-67) applied to a successfully parsed stored
value: read the four fallback fields (a read throwing, e.g. on a parsed
`null`, lands in the `catch` which installs `initialAppState`), default each
falsy one, and build
`{ ...initialAppState, ...parsedState, language, userProfile, chatHistory,
macronutrientGoals }`. -/
def rehydrate (deviceLocale : String) (parsed : JSValue) : JSValue :=
  match getFieldE parsed "language", getFieldE parsed "userProfile",
      getFieldE parsed "chatHistory", getFieldE parsed "macronutrientGoals" with
  | some lv, some uv, some cv, some mv =>
      let language := jsOr lv (vstr (getInitialLanguage deviceLocale))
      let userProfile := jsOr uv initialUserProfileJS
      let chatHistory := jsOr cv (varr [])
      let macronutrientGoals := jsOr mv initialMacroGoalsJS
      vobj (mergeFields
        (mergeFields (initialAppStateFields deviceLocale) (spreadFields parsed))
        [("language", language), ("userProfile", userProfile),
         ("chatHistory", chatHistory), ("macronutrientGoals", macronutrientGoals)])
  | _, _, _, _ => vobj (initialAppStateFields deviceLocale)

/-! ## Helper lemmas -/

lemma getFieldE_of_truthy (c : JSValue) (h : truthy c = true) (k : String) :
    getFieldE c k = some (getField c k) := by
  cases c <;> simp_all [truthy, getFieldE, getField]

/-- Closed form of `importData`: the three runtime checks decide everything;
no input raises an exception. -/
lemma importData_eq (prev c : JSValue) :
    importData prev c =
      if truthy c && truthy (getField c "logs") &&
          (typeofJS (getField c "dailyGoal") == "number")
      then some (true, c) else some (false, prev) := by
  by_cases hc : truthy c = true
  · rw [importData, if_pos hc, getFieldE_of_truthy c hc, getFieldE_of_truthy c hc]
    by_cases hl : truthy (getField c "logs") = true
    · by_cases hg : typeofJS (getField c "dailyGoal") = "number" <;>
        simp [hc, hl, hg]
    · simp [hc, hl]
  · simp [importData, hc]

/-! ## Claims about `importData` -/

/-- C1: for every candidate missing a `logs` field or whose `dailyGoal` is
not of numeric type, `importData` returns `false`, raises no exception
(result is `some`), and the `appState` after the call is the unchanged
previous state. -/
theorem importData_invalid_rejected (prev c : JSValue)
    (h : getField c "logs" = vundef ∨ typeofJS (getField c "dailyGoal") ≠ "number") :
    importData prev c = some (false, prev) := by
  rw [importData_eq]
  rcases h with h | h
  · simp [h, truthy]
  · simp [h]

/-- Witness for C1 at a concrete candidate whose `dailyGoal` is the string
`"2000"`. -/
theorem importData_invalid_rejected_witness :
    (getField (vobj [("logs", vobj []), ("dailyGoal", vstr "2000")]) "logs" = vundef ∨
      typeofJS (getField (vobj [("logs", vobj []), ("dailyGoal", vstr "2000")]) "dailyGoal") ≠
        "number") ∧
    importData vnull (vobj [("logs", vobj []), ("dailyGoal", vstr "2000")]) =
      some (false, vnull) :=
  ⟨Or.inr (by decide), importData_invalid_rejected _ _ (Or.inr (by decide))⟩

/-- C2: a candidate passing the validation makes `importData` return `true`,
installs the candidate wholesale as the new `appState` (so every top-level
field, `chatHistory` and `userProfile` included, is the candidate's), and the
re-run persistence effect writes the new state to durable storage. -/
theorem importData_valid_installs (p : ProviderState) (c : JSValue)
    (hinit : p.isInitialized = true)
    (h1 : truthy c = true)
    (h2 : truthy (getField c "logs") = true)
    (h3 : typeofJS (getField c "dailyGoal") = "number") :
    importDataStep p c =
      some (true, { appState := c, isInitialized := true, storage := some c }) := by
  rw [importDataStep, importData_eq]
  simp [h1, h2, h3, persistEffect, hinit]

/-- Witness for C2 at a concrete provider state and candidate. -/
theorem importData_valid_installs_witness :
    importDataStep ⟨vnull, true, none⟩ (vobj [("logs", vobj []), ("dailyGoal", vnum 1500)]) =
      some (true,
        { appState := vobj [("logs", vobj []), ("dailyGoal", vnum 1500)],
          isInitialized := true,
          storage := some (vobj [("logs", vobj []), ("dailyGoal", vnum 1500)]) }) :=
  importData_valid_installs ⟨vnull, true, none⟩ _ rfl (by decide) (by decide) (by decide)

/-- C10: `importData` succeeds (returning `true` and installing the candidate
wholesale) exactly when the candidate is truthy, its `logs` field is truthy
and its `dailyGoal` has `typeof` `"number"`; in particular a candidate whose
`logs` is a non-empty string and whose `dailyGoal` is `NaN` is accepted and
installed with no further shape checking. -/
theorem importData_truthiness_only (prev c : JSValue) :
    (importData prev c = some (true, c) ↔
      truthy c = true ∧ truthy (getField c "logs") = true ∧
        typeofJS (getField c "dailyGoal") = "number") ∧
    importData prev (vobj [("logs", vstr "oops"), ("dailyGoal", vnan)]) =
      some (true, vobj [("logs", vstr "oops"), ("dailyGoal", vnan)]) := by
  constructor
  · rw [importData_eq]
    constructor
    · intro h
      by_cases h1 : truthy c = true
      · by_cases h2 : truthy (getField c "logs") = true
        · by_cases h3 : typeofJS (getField c "dailyGoal") = "number"
          · exact ⟨h1, h2, h3⟩
          · simp [h1, h2, h3] at h
        · simp [h1, h2] at h
      · simp [h1] at h
    · rintro ⟨h1, h2, h3⟩
      simp [h1, h2, h3]
  · rw [importData_eq, if_pos (by decide)]

/-! ## Injectivity of the id generator `Date.now().toString()`
(decimal rendering of a natural number, `Nat.repr` in the embedding) -/

/-- Decimal digit list of `n`, most significant first; reference
implementation used to reason about core's fuelled `Nat.toDigitsCore`. -/
def digs (n : Nat) : List Char :=
  if h : n < 10 then [Nat.digitChar n]
  else
    have : n / 10 < n := Nat.div_lt_self (by omega) (by omega)
    digs (n / 10) ++ [Nat.digitChar (n % 10)]

lemma toDigitsCore_append (fuel : Nat) :
    ∀ (n : Nat) (ds : List Char),
      Nat.toDigitsCore 10 fuel n ds = Nat.toDigitsCore 10 fuel n [] ++ ds := by
  induction fuel with
  | zero => intro n ds; rfl
  | succ f ih =>
      intro n ds
      show Nat.toDigitsCore 10 (f + 1) n ds = Nat.toDigitsCore 10 (f + 1) n [] ++ ds
      rw [Nat.toDigitsCore, Nat.toDigitsCore]
      by_cases h : n / 10 = 0
      · simp [h]
      · simp only [h, if_false]
        rw [ih (n / 10) [Nat.digitChar (n % 10)],
          ih (n / 10) (Nat.digitChar (n % 10) :: ds), List.append_assoc]
        rfl

lemma toDigitsCore_eq_digs (fuel : Nat) :
    ∀ n : Nat, n < fuel → Nat.toDigitsCore 10 fuel n [] = digs n := by
  induction fuel with
  | zero => intro n h; omega
  | succ f ih =>
      intro n hn
      rw [Nat.toDigitsCore]
      by_cases h : n / 10 = 0
      · have h10 : n < 10 := by omega
        have : n % 10 = n := Nat.mod_eq_of_lt h10
        rw [digs]
        simp [h, h10, this]
      · have h10 : ¬ n < 10 := by omega
        have hlt : n / 10 < f := by
          have : n / 10 < n := Nat.div_lt_self (by omega) (by omega)
          omega
        simp only [h, if_false]
        rw [toDigitsCore_append, ih (n / 10) hlt]
        conv_rhs => rw [digs]
        simp [h10]

/-- `Nat.toDigits 10` agrees with the reference `digs`. -/
lemma toDigits_eq_digs (n : Nat) : Nat.toDigits 10 n = digs n :=
  toDigitsCore_eq_digs (n + 1) n (Nat.lt_succ_self n)

/-- Numeric value of a decimal digit character. -/
def digitVal (c : Char) : Nat := c.toNat - 48

/-- Evaluate a most-significant-first decimal digit list. -/
def parseDigits (cs : List Char) : Nat :=
  cs.foldl (fun a c => a * 10 + digitVal c) 0

lemma parseDigits_concat (cs : List Char) (c : Char) :
    parseDigits (cs ++ [c]) = parseDigits cs * 10 + digitVal c := by
  simp [parseDigits, List.foldl_append]

lemma digitVal_digitChar (d : Nat) (h : d < 10) :
    digitVal (Nat.digitChar d) = d := by
  interval_cases d <;> decide

lemma parseDigits_digs (n : Nat) : parseDigits (digs n) = n := by
  induction n using Nat.strong_induction_on with
  | _ n ih =>
      by_cases h : n < 10
      · rw [digs]
        simp only [h, dif_pos]
        show parseDigits ([] ++ [Nat.digitChar n]) = n
        rw [parseDigits_concat, digitVal_digitChar n h]
        simp [parseDigits]
      · have hdiv : n / 10 < n := Nat.div_lt_self (by omega) (by omega)
        rw [digs]
        simp only [h, dif_neg, not_false_iff]
        rw [parseDigits_concat, ih (n / 10) hdiv,
          digitVal_digitChar (n % 10) (Nat.mod_lt n (by omega))]
        omega

/-- Decimal rendering of naturals is injective: two distinct `Date.now()`
readings yield distinct id strings. -/
lemma natRepr_injective {a b : Nat} (h : Nat.repr a = Nat.repr b) : a = b := by
  have hdata : (Nat.toDigits 10 a) = (Nat.toDigits 10 b) := by
    have := congrArg String.data h
    simpa [Nat.repr, List.asString] using this
  have := congrArg parseDigits hdata
  rwa [toDigits_eq_digs, toDigits_eq_digs, parseDigits_digs, parseDigits_digs] at this

/-! ## Lemmas about the logs mapping -/

lemma lookupLog_setLog_self (m : List (String × DailyLog)) (k : String) (v : DailyLog) :
    lookupLog (setLog m k v) k = some v := by
  induction m with
  | nil => simp [setLog, lookupLog]
  | cons p rest ih =>
      obtain ⟨pk, pv⟩ := p
      by_cases h : pk = k
      · simp [setLog, h, lookupLog]
      · simp [setLog, h, lookupLog, ih]

lemma setLog_self (m : List (String × DailyLog)) (k : String) (v : DailyLog)
    (h : lookupLog m k = some v) : setLog m k v = m := by
  induction m with
  | nil => simp [lookupLog] at h
  | cons p rest ih =>
      obtain ⟨pk, pv⟩ := p
      by_cases hk : pk = k
      · rw [lookupLog, if_pos hk] at h
        rw [setLog, if_pos hk, hk]
        simp at h
        rw [h]
      · rw [lookupLog, if_neg hk] at h
        rw [setLog, if_neg hk, ih h]

/-! ## Claims about the typed store operations -/

/-- A concrete state (the hard-coded initial state with English language),
used to instantiate witnesses. -/
def sampleState : AppState :=
  { dailyGoal := 2000,
    macronutrientGoals := { protein := 150, carbs := 250, fat := 60 },
    logs := [],
    customFoods := [],
    apiKey := none,
    aiModel := "gemini-2.5-flash",
    language := "en",
    userProfile := { age := none, sex := none, weight := none, height := none,
                     activityLevel := "moderate" },
    chatHistory := [] }

/-- C3: when the logs mapping has no entry for a date, `getLogForDate`
returns the empty log `{food: [], exercise: []}` (total function: it can
neither fail nor return a missing value). -/
theorem getLogForDate_missing (s : AppState) (d : String)
    (h : lookupLog s.logs d = none) :
    getLogForDate s d = { food := [], exercise := [] } := by
  simp [getLogForDate, h, emptyLog]

/-- Witness for C3: the empty-logs state has no entry for 2024-05-01. -/
theorem getLogForDate_missing_witness :
    lookupLog sampleState.logs "2024-05-01" = none ∧
    getLogForDate sampleState "2024-05-01" = { food := [], exercise := [] } :=
  ⟨rfl, getLogForDate_missing sampleState "2024-05-01" rfl⟩

/-- C9: `clearChatHistory` is idempotent — a second call yields the same
state as one call, namely empty `chatHistory` with every other field
untouched. -/
theorem clearChatHistory_idempotent (s : AppState) :
    clearChatHistory (clearChatHistory s) = clearChatHistory s ∧
    (clearChatHistory s).chatHistory = [] ∧
    (clearChatHistory s).dailyGoal = s.dailyGoal ∧
    (clearChatHistory s).macronutrientGoals = s.macronutrientGoals ∧
    (clearChatHistory s).logs = s.logs ∧
    (clearChatHistory s).customFoods = s.customFoods ∧
    (clearChatHistory s).apiKey = s.apiKey ∧
    (clearChatHistory s).aiModel = s.aiModel ∧
    (clearChatHistory s).language = s.language ∧
    (clearChatHistory s).userProfile = s.userProfile :=
  ⟨rfl, rfl, rfl, rfl, rfl, rfl, rfl, rfl, rfl, rfl⟩

/-- C8: `removeFood` keeps exactly the food entries of the active date whose
id differs (leaving the exercise list alone), and is a no-op — the whole
state unchanged — when the date has no log or no food entry carries the id;
`removeExercise` is symmetric. -/
theorem remove_spec (s : AppState) (d tid : String) :
    (lookupLog s.logs d = none → removeFood d tid s = s) ∧
    (∀ log, lookupLog s.logs d = some log →
      (getLogForDate (removeFood d tid s) d).food =
          log.food.filter (fun f => f.id ≠ tid) ∧
      (getLogForDate (removeFood d tid s) d).exercise = log.exercise ∧
      ((∀ f ∈ log.food, f.id ≠ tid) → removeFood d tid s = s)) ∧
    (lookupLog s.logs d = none → removeExercise d tid s = s) ∧
    (∀ log, lookupLog s.logs d = some log →
      (getLogForDate (removeExercise d tid s) d).exercise =
          log.exercise.filter (fun e => e.id ≠ tid) ∧
      (getLogForDate (removeExercise d tid s) d).food = log.food ∧
      ((∀ e ∈ log.exercise, e.id ≠ tid) → removeExercise d tid s = s)) := by
  refine ⟨?_, ?_, ?_, ?_⟩
  · intro h; simp [removeFood, h]
  · intro log h
    refine ⟨?_, ?_, ?_⟩
    · simp [removeFood, h, getLogForDate, lookupLog_setLog_self]
    · simp [removeFood, h, getLogForDate, lookupLog_setLog_self]
    · intro hall
      have hfilter : log.food.filter (fun f => decide (f.id ≠ tid)) = log.food := by
        apply List.filter_eq_self.mpr
        intro a ha
        simpa using hall a ha
      simp only [removeFood, h]
      rw [hfilter, setLog_self s.logs d log h]
  · intro h; simp [removeExercise, h]
  · intro log h
    refine ⟨?_, ?_, ?_⟩
    · simp [removeExercise, h, getLogForDate, lookupLog_setLog_self]
    · simp [removeExercise, h, getLogForDate, lookupLog_setLog_self]
    · intro hall
      have hfilter : log.exercise.filter (fun e => decide (e.id ≠ tid)) = log.exercise := by
        apply List.filter_eq_self.mpr
        intro a ha
        simpa using hall a ha
      simp only [removeExercise, h]
      rw [hfilter, setLog_self s.logs d log h]

/-- A concrete food entry whose id is the decimal string "5". -/
def appleEntry : FoodEntry :=
  { id := "5", name := "apple", calories := 95, protein := 0, carbs := 25,
    fat := 0, meal := "snack" }

/-- A concrete exercise entry whose id is the decimal string "5". -/
def runEntry : ExerciseEntry :=
  { id := "5", name := "run", duration := 30, calories := 300 }

/-- A state holding one food and one exercise entry on 2024-05-01. -/
def stateWithLog : AppState :=
  { sampleState with
      logs := [("2024-05-01", { food := [appleEntry], exercise := [runEntry] })] }

/-- Witness for C8: a missing date is a no-op; on a present date, an absent
id leaves the state unchanged and a present id removes exactly that entry. -/
theorem remove_spec_witness :
    (removeFood "2024-06-01" "5" stateWithLog = stateWithLog) ∧
    (removeExercise "2024-06-01" "5" stateWithLog = stateWithLog) ∧
    ((getLogForDate (removeFood "2024-05-01" "5" stateWithLog) "2024-05-01").food = []) ∧
    (removeFood "2024-05-01" "9" stateWithLog = stateWithLog) ∧
    ((getLogForDate (removeExercise "2024-05-01" "5" stateWithLog) "2024-05-01").exercise
      = []) ∧
    (removeExercise "2024-05-01" "9" stateWithLog = stateWithLog) := by
  have h1 := (remove_spec stateWithLog "2024-06-01" "5").1 (by decide)
  have h2 := (remove_spec stateWithLog "2024-06-01" "5").2.2.1 (by decide)
  have h3 := ((remove_spec stateWithLog "2024-05-01" "5").2.1
    { food := [appleEntry], exercise := [runEntry] } (by decide)).1
  have h4 := ((remove_spec stateWithLog "2024-05-01" "9").2.1
    { food := [appleEntry], exercise := [runEntry] } (by decide)).2.2 (by decide)
  have h5 := ((remove_spec stateWithLog "2024-05-01" "5").2.2.2
    { food := [appleEntry], exercise := [runEntry] } (by decide)).1
  have h6 := ((remove_spec stateWithLog "2024-05-01" "9").2.2.2
    { food := [appleEntry], exercise := [runEntry] } (by decide)).2.2 (by decide)
  refine ⟨h1, h2, ?_, h4, ?_, h6⟩
  · rw [h3]; decide
  · rw [h5]; decide

/-- Counterexample to C4 as stated: when the clock reading renders to an id
already present in the date's food list (here both are `"5"`), `removeFood`
with the id assigned by `addFood` also deletes the pre-existing entry, so the
food list is not restored. -/
theorem addFood_removeFood_not_roundtrip :
    (getLogForDate
        (removeFood "2024-05-01" (toString 5)
          (addFood "2024-05-01" 5
            { name := "apple", calories := 95, protein := 0, carbs := 25,
              fat := 0, meal := "snack" } stateWithLog)) "2024-05-01").food ≠
      (getLogForDate stateWithLog "2024-05-01").food := by
  decide

/-- C4 (amended: provided the id assigned by `addFood` does not already occur
in that date's food list — which the id-uniqueness invariant is intended to
guarantee): `addFood` followed by `removeFood` with the assigned id restores
the prior food list for that date. -/
theorem addFood_removeFood_roundtrip (s : AppState) (d : String) (f : FoodData)
    (now : Nat)
    (h : ∀ g ∈ (getLogForDate s d).food, g.id ≠ toString now) :
    (getLogForDate (removeFood d (toString now) (addFood d now f s)) d).food =
      (getLogForDate s d).food := by
  have hlook : lookupLog (addFood d now f s).logs d =
      some { (getLogForDate s d) with
              food := (getLogForDate s d).food ++ [foodWithId f now] } := by
    simp [addFood, lookupLog_setLog_self, getLogForDate]
  simp only [removeFood, hlook]
  simp only [getLogForDate, lookupLog_setLog_self, Option.getD_some]
  rw [List.filter_append]
  have h1 : (getLogForDate s d).food.filter
      (fun g => decide (g.id ≠ toString now)) = (getLogForDate s d).food := by
    apply List.filter_eq_self.mpr
    intro a ha
    simpa using h a ha
  have h2 : [foodWithId f now].filter (fun g => decide (g.id ≠ toString now)) = [] := by
    simp [foodWithId]
  rw [getLogForDate] at h1
  simp only [h1, h2, List.append_nil]

/-- Witness for C4's amended theorem with a fresh clock reading `7`. -/
theorem addFood_removeFood_roundtrip_witness :
    (∀ g ∈ (getLogForDate stateWithLog "2024-05-01").food, g.id ≠ toString 7) ∧
    (getLogForDate
        (removeFood "2024-05-01" (toString 7)
          (addFood "2024-05-01" 7
            { name := "apple", calories := 95, protein := 0, carbs := 25,
              fat := 0, meal := "snack" } stateWithLog)) "2024-05-01").food =
      (getLogForDate stateWithLog "2024-05-01").food :=
  ⟨by decide, addFood_removeFood_roundtrip stateWithLog "2024-05-01" _ 7 (by decide)⟩

/-- A concrete exercise payload (no id). -/
def runData : ExerciseData := { name := "run", duration := 30, calories := 300 }

/-- Counterexample to C5 as stated: two sequential `addExercise` calls within
the same clock millisecond (both readings `0`) generate the id `"0"` twice,
so the two appended entries do not have distinct ids. -/
theorem addExercise_twice_ids_not_distinct :
    ((getLogForDate
        (addExercise "2024-05-01" 0 runData
          (addExercise "2024-05-01" 0 runData sampleState)) "2024-05-01").exercise.map
      ExerciseEntry.id) = [toString 0, toString 0] ∧
    ¬ List.Pairwise (fun a b : ExerciseEntry => a.id ≠ b.id)
        (getLogForDate
          (addExercise "2024-05-01" 0 runData
            (addExercise "2024-05-01" 0 runData sampleState)) "2024-05-01").exercise := by
  constructor
  · decide
  · intro hp
    have hlist : (getLogForDate
        (addExercise "2024-05-01" 0 runData
          (addExercise "2024-05-01" 0 runData sampleState)) "2024-05-01").exercise =
        [exerciseWithId runData 0, exerciseWithId runData 0] := by decide
    rw [hlist] at hp
    rcases List.pairwise_cons.mp hp with ⟨h1, _⟩
    exact h1 (exerciseWithId runData 0) (by simp) rfl

/-- C5 (amended: the two generated ids are distinct provided the two
`Date.now()` readings differ; order preservation holds unconditionally): two
sequential `addExercise` calls on the same date append both entries in call
order to the date's exercise array, and the generated ids differ when the
clock readings do. -/
theorem addExercise_twice_ordered (s : AppState) (d : String)
    (e1 e2 : ExerciseData) (t1 t2 : Nat) :
    (getLogForDate (addExercise d t2 e2 (addExercise d t1 e1 s)) d).exercise =
      (getLogForDate s d).exercise ++ [exerciseWithId e1 t1, exerciseWithId e2 t2] ∧
    (t1 ≠ t2 → (exerciseWithId e1 t1).id ≠ (exerciseWithId e2 t2).id) := by
  constructor
  · have hlook : lookupLog (addExercise d t1 e1 s).logs d =
        some { (getLogForDate s d) with
                exercise := (getLogForDate s d).exercise ++ [exerciseWithId e1 t1] } := by
      simp [addExercise, lookupLog_setLog_self, getLogForDate]
    simp [addExercise, hlook, getLogForDate, lookupLog_setLog_self]
  · intro h heq
    simp only [exerciseWithId] at heq
    exact h (natRepr_injective heq)

/-- Witness for C5's amended theorem with clock readings `3` and `4`. -/
theorem addExercise_twice_ordered_witness :
    ((getLogForDate (addExercise "2024-05-01" 4 runData
        (addExercise "2024-05-01" 3 runData sampleState)) "2024-05-01").exercise =
      (getLogForDate sampleState "2024-05-01").exercise ++
        [exerciseWithId runData 3, exerciseWithId runData 4]) ∧
    (3 ≠ 4) ∧
    (exerciseWithId runData 3).id ≠ (exerciseWithId runData 4).id :=
  ⟨(addExercise_twice_ordered sampleState "2024-05-01" runData runData 3 4).1,
    by decide,
    (addExercise_twice_ordered sampleState "2024-05-01" runData runData 3 4).2
      (by decide)⟩

/-- C7: with no stored state, the initial language comes from the device
locale: the Traditional Chinese locales of Taiwan and Hong Kong (lower-cased
substring `zh-tw` / `zh-hk`) give `"zh-TW"`, and any locale indicating
neither — e.g. `"en-US"` — gives `"en"`. -/
theorem getInitialLanguage_locale (loc : String)
    (h1 : hasSub (loc.toList.map Char.toLower) "zh-tw".toList = false)
    (h2 : hasSub (loc.toList.map Char.toLower) "zh-hk".toList = false) :
    getInitialLanguage "zh-TW" = "zh-TW" ∧
    getInitialLanguage "zh-HK" = "zh-TW" ∧
    getInitialLanguage "en-US" = "en" ∧
    getInitialLanguage loc = "en" := by
  refine ⟨by decide, by decide, by decide, ?_⟩
  simp only [getInitialLanguage]
  rw [h1, h2]
  simp

/-- Witness for C7 at the concrete locale `"fr-FR"`. -/
theorem getInitialLanguage_locale_witness :
    hasSub ("fr-FR".toList.map Char.toLower) "zh-tw".toList = false ∧
    hasSub ("fr-FR".toList.map Char.toLower) "zh-hk".toList = false ∧
    getInitialLanguage "fr-FR" = "en" :=
  ⟨by decide, by decide,
    (getInitialLanguage_locale "fr-FR" (by decide) (by decide)).2.2.2⟩

lemma lookupField_append (xs ys : List (String × JSValue)) (k : String) :
    lookupField (xs ++ ys) k =
      match lookupField xs k with
      | some v => some v
      | none => lookupField ys k := by
  induction xs with
  | nil => simp [lookupField]
  | cons p rest ih =>
      obtain ⟨pk, pv⟩ := p
      by_cases h : pk = k
      · simp [lookupField, h]
      · simp [lookupField, h, ih]

lemma rehydrate_obj (deviceLocale : String) (fs : List (String × JSValue)) :
    rehydrate deviceLocale (vobj fs) =
      vobj ([("language",
                jsOr ((lookupField fs "language").getD vundef)
                  (vstr (getInitialLanguage deviceLocale))),
             ("userProfile",
                jsOr ((lookupField fs "userProfile").getD vundef) initialUserProfileJS),
             ("chatHistory",
                jsOr ((lookupField fs "chatHistory").getD vundef) (varr [])),
             ("macronutrientGoals",
                jsOr ((lookupField fs "macronutrientGoals").getD vundef)
                  initialMacroGoalsJS)] ++
            (fs ++ initialAppStateFields deviceLocale)) := by
  simp [rehydrate, getFieldE, getField, mergeFields, spreadFields]

/-- C6: for every successfully parsed stored object, each of the nested
fields `macronutrientGoals`, `userProfile`, `chatHistory` that is missing is
independently replaced by its hard-coded default (`{protein:150, carbs:250,
fat:60}`, the empty profile, `[]`), while every other stored top-level field
is kept as stored rather than rejected. -/
theorem rehydrate_defaults (deviceLocale : String) (fs : List (String × JSValue)) :
    (lookupField fs "macronutrientGoals" = none →
      getField (rehydrate deviceLocale (vobj fs)) "macronutrientGoals" =
        initialMacroGoalsJS) ∧
    (lookupField fs "userProfile" = none →
      getField (rehydrate deviceLocale (vobj fs)) "userProfile" =
        initialUserProfileJS) ∧
    (lookupField fs "chatHistory" = none →
      getField (rehydrate deviceLocale (vobj fs)) "chatHistory" = varr []) ∧
    (∀ k v, lookupField fs k = some v →
      k ≠ "language" → k ≠ "userProfile" → k ≠ "chatHistory" →
      k ≠ "macronutrientGoals" →
      getField (rehydrate deviceLocale (vobj fs)) k = v) := by
  rw [rehydrate_obj]
  refine ⟨?_, ?_, ?_, ?_⟩
  · intro h
    simp [getField, getFieldE, lookupField, h, jsOr, truthy]
  · intro h
    simp [getField, getFieldE, lookupField, h, jsOr, truthy]
  · intro h
    simp [getField, getFieldE, lookupField, h, jsOr, truthy]
  · intro k v hkv h1 h2 h3 h4
    have e1 : ¬ ("language" = k) := fun hh => h1 hh.symm
    have e2 : ¬ ("userProfile" = k) := fun hh => h2 hh.symm
    have e3 : ¬ ("chatHistory" = k) := fun hh => h3 hh.symm
    have e4 : ¬ ("macronutrientGoals" = k) := fun hh => h4 hh.symm
    simp only [getField, getFieldE, lookupField, e1, e2, e3, e4, if_false]
    have hnil : ([] : List (String × JSValue)).append
        (fs ++ initialAppStateFields deviceLocale) =
        fs ++ initialAppStateFields deviceLocale := rfl
    rw [hnil, lookupField_append, hkv]
    rfl

/-- Witness for C6: a stored object holding only `dailyGoal` gets all three
nested defaults while its own `dailyGoal` is kept. -/
theorem rehydrate_defaults_witness :
    (lookupField [("dailyGoal", vnum 1800)] "macronutrientGoals" = none ∧
      getField (rehydrate "en-US" (vobj [("dailyGoal", vnum 1800)]))
        "macronutrientGoals" = initialMacroGoalsJS) ∧
    (getField (rehydrate "en-US" (vobj [("dailyGoal", vnum 1800)])) "userProfile" =
      initialUserProfileJS) ∧
    (getField (rehydrate "en-US" (vobj [("dailyGoal", vnum 1800)])) "chatHistory" =
      varr []) ∧
    (getField (rehydrate "en-US" (vobj [("dailyGoal", vnum 1800)])) "dailyGoal" =
      vnum 1800) := by
  refine ⟨⟨rfl, (rehydrate_defaults "en-US" [("dailyGoal", vnum 1800)]).1 rfl⟩,
    (rehydrate_defaults "en-US" [("dailyGoal", vnum 1800)]).2.1 rfl,
    (rehydrate_defaults "en-US" [("dailyGoal", vnum 1800)]).2.2.1 rfl,
    (rehydrate_defaults "en-US" [("dailyGoal", vnum 1800)]).2.2.2 "dailyGoal"
      (vnum 1800) rfl ?_ ?_ ?_ ?_⟩ <;> decide
